import Mathlib

/-!
Verification of the fabric-ca CSP key-resolution core.

This file shallowly embeds the key-resolution code of the repository:
the CP-ABE key variants' SKI (subject-key-identifier) computation
(bccsp/sw cpabe key file), and the functions of internal/pkg/util/csp.go:
BccspBackedCPABEPrivateKey, BccspBackedCPABEParams, BccspBackedSigner,
GetSignerFromCert, getBCCSPKeyOpts, ImportBCCSPKeyFromPEM and the PEM-block
scan of LoadX509KeyPair.

External collaborators (proto.Marshal, crypto/sha256, abeutils.Hash, the
BCCSP key store, PEM/X.509 parsing, JSON unmarshalling) are modelled as
function parameters: the theorems quantify over them, so they hold for the
real implementations.  Byte strings are `List Nat`.
-/

/-! ## Key variant SKI computation (bccsp/sw cpabe key file)

Each Go SKI method either returns nil (key unset), returns a digest, or
panics.  `panic` crashes the calling process, so it is modelled as its own
outcome, distinct from returning a digest and from an error result. -/

inductive SKIResult where
  | nilSKI
  | panicked
  | digest (d : List Nat)
deriving DecidableEq, Repr

/-- Embedding of `cpabeMasterKey.SKI`:
`if k.key == nil { return nil }; raw, err := proto.Marshal(k.key);
if err != nil { panic(err) }; return sha256(raw)`. -/
def cpabeMasterKeySKI {α : Type} (marshal : α → Except String (List Nat))
    (sha : List Nat → List Nat) (key : Option α) : SKIResult :=
  match key with
  | none => .nilSKI
  | some k =>
    match marshal k with
    | .error _ => .panicked
    | .ok raw => .digest (sha raw)

/-- Embedding of `cpabePrivateKey.SKI`: same shape as the master-key variant. -/
def cpabePrivateKeySKI {α : Type} (marshal : α → Except String (List Nat))
    (sha : List Nat → List Nat) (key : Option α) : SKIResult :=
  match key with
  | none => .nilSKI
  | some k =>
    match marshal k with
    | .error _ => .panicked
    | .ok raw => .digest (sha raw)

/-- Embedding of `cpabeParams.SKI`:
`if p.params == nil { return nil }; raw, err := proto.Marshal(p.params);
panic(err); ...`.  The `panic(err)` is NOT guarded by `if err != nil`, so it
executes on every call with non-nil params — also when marshalling succeeded
(in Go, `panic(nil)` is still a run-time panic).  The hashing code after it
is dead. -/
def cpabeParamsSKI {α : Type} (marshal : α → Except String (List Nat))
    (_sha : List Nat → List Nat) (params : Option α) : SKIResult :=
  match params with
  | none => .nilSKI
  | some p =>
    match marshal p with
    | .error _ => .panicked
    | .ok _raw => .panicked

/-! ## getBCCSPKeyOpts (csp.go lines 215-249) -/

/-- The algo/size pair carried by a cfssl `csr.KeyRequest`
(`Algo() string`, `Size() int`). -/
structure KeyReq where
  algo : String
  size : Int
deriving DecidableEq, Repr

inductive KeyGenOpts where
  | ecdsaDefault (temporary : Bool)
  | rsa2048 (temporary : Bool)
  | rsa3072 (temporary : Bool)
  | rsa4096 (temporary : Bool)
  | ecdsaP256 (temporary : Bool)
  | ecdsaP384 (temporary : Bool)
deriving DecidableEq, Repr

inductive KeyOptsErr where
  | invalidRSASize (n : Int)
  | unsupportedECDSA521
  | invalidECDSASize (n : Int)
  | invalidAlgo (a : String)
deriving DecidableEq, Repr

/-- Embedding of `getBCCSPKeyOpts`: the Go `switch` over `kr.Algo()` and
`kr.Size()`, with a nil request defaulting to ECDSA options whose
`Temporary` flag is the caller's `ephemeral` argument. -/
def getBCCSPKeyOpts (kr : Option KeyReq) (ephemeral : Bool) :
    Except KeyOptsErr KeyGenOpts :=
  match kr with
  | none => .ok (.ecdsaDefault ephemeral)
  | some r =>
    if r.algo = "rsa" then
      if r.size = 2048 then .ok (.rsa2048 ephemeral)
      else if r.size = 3072 then .ok (.rsa3072 ephemeral)
      else if r.size = 4096 then .ok (.rsa4096 ephemeral)
      else .error (.invalidRSASize r.size)
    else if r.algo = "ecdsa" then
      if r.size = 256 then .ok (.ecdsaP256 ephemeral)
      else if r.size = 384 then .ok (.ecdsaP384 ephemeral)
      else if r.size = 521 then .error .unsupportedECDSA521
      else .error (.invalidECDSASize r.size)
    else .error (.invalidAlgo r.algo)

/-! ## Certificate-derived CP-ABE key lookup (csp.go lines 128-211)

A parsed certificate is represented by its extension list: pairs of an
OID (as the string `ext.Id.String()` compares against) and raw bytes.
The JSON unmarshalling of the attribute extension (`attrmgr.Attributes`,
a map from attribute name to value) is a parameter returning the map as an
association list in some iteration order; `abeutils.Hash` is a parameter
`hash32`; SHA-256 is a parameter `sha` applied to the concatenation of
everything written to the hash. -/

structure Extension where
  oid : String
  value : List Nat
deriving DecidableEq, Repr

/-- `cpabe.ParamsOIDString` (oid.go). -/
def ParamsOIDString : String := "1.2.3.4.5.6.7.8.9"

/-- Big-endian 4-byte encoding: `binary.BigEndian.PutUint32`. -/
def be32 (n : Nat) : List Nat :=
  [n / 2 ^ 24 % 256, n / 2 ^ 16 % 256, n / 2 ^ 8 % 256, n % 256]

/-- Go map index `attrs.Attrs[key]` (missing key yields the zero string). -/
def lookupAttr (attrs : List (String × String)) (k : String) : String :=
  match attrs.find? (fun q => q.1 == k) with
  | some q => q.2
  | none => ""

/-- The attribute block of the scan loop (csp.go 151-159): collect the map's
keys, sort them ascending (`sort.Sort(sort.StringSlice(keys))`), and for each
key in sorted order hash `"name.value"` and truncate to 32 bits
(`int32(abeutils.Hash(attrString))`, re-read as `uint32` when encoded). -/
def attrIDs (hash32 : String → Nat) (attrs : List (String × String)) : List Nat :=
  (List.insertionSort (· ≤ ·) (attrs.map Prod.fst)).map
    (fun k => hash32 (k ++ "." ++ lookupAttr attrs k) % 2 ^ 32)

/-- The extension loop of `BccspBackedCPABEPrivateKey` (csp.go 142-161),
threading the state `(paramsBytes, attributeID)`.  Both `if`s of the Go loop
body are independent; a JSON unmarshal failure aborts the whole call. -/
def scanExtensions (attrOID : String)
    (unmarshal : List Nat → Option (List (String × String)))
    (hash32 : String → Nat) :
    List Extension → Option (List Nat) × List Nat →
      Except Unit (Option (List Nat) × List Nat)
  | [], st => .ok st
  | e :: rest, st =>
    let pb := if e.oid = ParamsOIDString then some e.value else st.1
    if e.oid = attrOID then
      match unmarshal e.value with
      | none => .error ()
      | some attrs =>
          scanExtensions attrOID unmarshal hash32 rest (pb, st.2 ++ attrIDs hash32 attrs)
    else
      scanExtensions attrOID unmarshal hash32 rest (pb, st.2)

/-- Observable outcome of `BccspBackedCPABEPrivateKey` after the certificate
has been read and parsed: the JSON error return (csp.go 149), the nil-key /
nil-error "not support cpabe" return (163-164), or the final
`csp.GetKey(ski)` call with the computed identifier (179). -/
inductive CPABEPrivResult where
  | unmarshalError
  | notSupported
  | getKey (ski : List Nat)
deriving DecidableEq, Repr

/-- Embedding of `BccspBackedCPABEPrivateKey` (csp.go 128-180) from the
extension list of the parsed certificate onward: scan the extensions, return
nil/nil when no Params extension was seen, else hash
`paramsBytes ‖ attrBytes` where `attrBytes` is the concatenation of the
big-endian 4-byte encodings of the attribute IDs, and query the store. -/
def BccspBackedCPABEPrivateKey (attrOID : String)
    (unmarshal : List Nat → Option (List (String × String)))
    (hash32 : String → Nat) (sha : List Nat → List Nat)
    (es : List Extension) : CPABEPrivResult :=
  match scanExtensions attrOID unmarshal hash32 es (none, []) with
  | .error _ => .unmarshalError
  | .ok (none, _) => .notSupported
  | .ok (some pb, ids) => .getKey (sha (pb ++ (ids.map be32).flatten))

/-- Observable outcome of `BccspBackedCPABEParams` after parsing: the
nil-key / nil-error return (csp.go 202-203) or the
`csp.KeyImport(paramsBytes, ...)` call (206). -/
inductive CPABEParamsResult where
  | notSupported
  | keyImport (paramsBytes : List Nat)
deriving DecidableEq, Repr

/-- The Params-only extension loop (csp.go 196-200): the last extension whose
OID is the Params OID wins. -/
def lastParamsBytes (es : List Extension) : Option (List Nat) :=
  es.foldl (fun acc e => if e.oid = ParamsOIDString then some e.value else acc) none

/-- Embedding of `BccspBackedCPABEParams` (csp.go 183-211) from the extension
list onward. -/
def BccspBackedCPABEParams (es : List Extension) : CPABEParamsResult :=
  match lastParamsBytes es with
  | none => .notSupported
  | some pb => .keyImport pb

/-! Spec-side definitions for the refinement claim about the private-key
identifier formula, written from the spec's words: "Compute the CP-ABE
private-key identifier as cryptographic-hash(Params-bytes ‖
big-endian-4-byte-encoding of each AttributeID in canonical order)", where
an AttributeID is the 32-bit hash of the string "name.value" and the
canonical order sorts the pairs lexicographically by attribute name. -/

def specCanonicalPairs (attrs : List (String × String)) : List (String × String) :=
  List.insertionSort (fun p q => p.1 ≤ q.1) attrs

def specAttributeIDs (hash32 : String → Nat) (attrs : List (String × String)) : List Nat :=
  (specCanonicalPairs attrs).map (fun p => hash32 (p.1 ++ "." ++ p.2) % 2 ^ 32)

def specCPABEIdentifier (sha : List Nat → List Nat) (hash32 : String → Nat)
    (paramsBytes : List Nat) (attrs : List (String × String)) : List Nat :=
  sha (paramsBytes ++ ((specAttributeIDs hash32 attrs).map be32).flatten)

/-! ## GetSignerFromCert (csp.go lines 252-278)

The BCCSP store may answer `GetKey` with a public key object; only its
`Private()` flag matters here, so a store answer is a payload together with
that flag. -/

structure StoreKey (σ : Type) where
  val : σ
  isPriv : Bool
deriving DecidableEq, Repr

inductive GetSignerErr where
  | cspNotInitialized
  | importPublicKeyFailed
  | getKeyFailed
  | privateKeyNotFound (ski : List Nat)
  | cryptoSignerFailed
deriving DecidableEq, Repr

/-- Embedding of `GetSignerFromCert`: nil-CSP check, import of the
certificate's public key, `GetKey` on its SKI, rejection of a non-private
answer with the "private key ... was not found" error naming the SKI, then
signer construction. -/
def GetSignerFromCert {π σ S : Type} (cspInit : Bool)
    (keyImport : Except Unit π) (ski : π → List Nat)
    (getKey : List Nat → Except Unit (StoreKey σ))
    (newCryptoSigner : StoreKey σ → Except Unit S) :
    Except GetSignerErr (StoreKey σ × S) :=
  if cspInit = false then .error .cspNotInitialized
  else
    match keyImport with
    | .error _ => .error .importPublicKeyFailed
    | .ok certPubK =>
      match getKey (ski certPubK) with
      | .error _ => .error .getKeyFailed
      | .ok privateKey =>
        if privateKey.isPriv = false then .error (.privateKeyNotFound (ski certPubK))
        else
          match newCryptoSigner privateKey with
          | .error _ => .error .cryptoSignerFailed
          | .ok s => .ok (privateKey, s)

/-! ## BccspBackedSigner (csp.go lines 86-111)

`GetSignerFromCertFile` (read + parse + `GetSignerFromCert`) is abstracted
as its outcome for the given CA file; the fallback body is
`ImportBCCSPKeyFromPEM` followed by `cspsigner.New`, then both paths end in
`local.NewSigner`.  The second component of the result counts how many times
the fallback import was attempted, making "attempted at most once"
provable. -/

inductive BackedSignerErr where
  | keyfileImportFailed
  | cryptoSignerInitFailed
  | newSignerFailed
deriving DecidableEq, Repr

/-- Embedding of `BccspBackedSigner`.  `keyfileImportFailed` is the error
wrapping "Could not find the private key in BCCSP keystore nor in keyfile
'%s'" (the only error message naming the key file). -/
def BccspBackedSigner {CS K S : Type} (getSignerFromCertFile : Except Unit CS)
    (importBCCSPKey : Except Unit K) (newCryptoSigner : K → Except Unit CS)
    (newLocalSigner : CS → Except Unit S) : Except BackedSignerErr S × Nat :=
  match getSignerFromCertFile with
  | .ok cspSigner =>
    (match newLocalSigner cspSigner with
     | .error _ => .error .newSignerFailed
     | .ok s => .ok s, 0)
  | .error _ =>
    match importBCCSPKey with
    | .error _ => (.error .keyfileImportFailed, 1)
    | .ok key =>
      match newCryptoSigner key with
      | .error _ => (.error .cryptoSignerInitFailed, 1)
      | .ok cspSigner =>
        (match newLocalSigner cspSigner with
         | .error _ => .error .newSignerFailed
         | .ok s => .ok s, 1)

/-! ## ImportBCCSPKeyFromPEM (csp.go lines 337-362) -/

/-- What `utils.PEMtoPrivateKey` can yield: the type switch of the Go code
distinguishes `*ecdsa.PrivateKey`, `*rsa.PrivateKey`, and anything else. -/
inductive PEMKey (E R : Type) where
  | ecdsa (k : E)
  | rsa (k : R)
  | other
deriving DecidableEq, Repr

inductive ImportErr where
  | readError
  | parseError
  | derConvertError
  | importError
  | rsaUnsupported
  | invalidKeyType
deriving DecidableEq, Repr

/-- Embedding of `ImportBCCSPKeyFromPEM`, returning the Go pair
`(bccsp.Key, error)` as `(Option K, Option ImportErr)`.  `rsaUnsupported` is
the "RSA private key import is not supported" error naming the file. -/
def ImportBCCSPKeyFromPEM {E R K : Type} (readFile : Except Unit (List Nat))
    (pemToPrivateKey : List Nat → Except Unit (PEMKey E R))
    (privateKeyToDER : E → Except Unit (List Nat))
    (keyImport : List Nat → Except Unit K) : Option K × Option ImportErr :=
  match readFile with
  | .error _ => (none, some .readError)
  | .ok keyBuff =>
    match pemToPrivateKey keyBuff with
    | .error _ => (none, some .parseError)
    | .ok (.ecdsa k) =>
      match privateKeyToDER k with
      | .error _ => (none, some .derConvertError)
      | .ok priv =>
        match keyImport priv with
        | .error _ => (none, some .importError)
        | .ok sk => (some sk, none)
    | .ok (.rsa _) => (none, some .rsaUnsupported)
    | .ok .other => (none, some .invalidKeyType)

/-! ## LoadX509KeyPair PEM-block scan (csp.go lines 380-402) -/

structure PEMBlock where
  btype : String
  bytes : List Nat
deriving DecidableEq, Repr

/-- `strings.HasSuffix(s, suffix)`: byte-string suffix test, modelled on the
character list (UTF-8 encoding preserves the suffix relation). -/
def hasSuffix (s suffix : String) : Bool :=
  List.isSuffixOf suffix.data s.data

/-- The decode loop (csp.go 381-392): certificate blocks accumulate in
`cert.Certificate`, all other block types accumulate in
`skippedBlockTypes`, in order. -/
def scanCertBlocks (blocks : List PEMBlock) : List (List Nat) × List String :=
  blocks.foldl
    (fun st b =>
      if b.btype = "CERTIFICATE" then (st.1 ++ [b.bytes], st.2)
      else (st.1, st.2 ++ [b.btype]))
    ([], [])

inductive LoadKeyPairResult where
  | errNoPEMBlock
  | errSwitched
  | errSkippedTypes (types : List String)
  | proceed (certs : List (List Nat))
deriving DecidableEq, Repr

/-- Embedding of the no-certificate error selection of `LoadX509KeyPair`
(csp.go 394-402): with no CERTIFICATE block, no block at all is "Failed to
find PEM block"; exactly one skipped block whose type has suffix
"PRIVATE KEY" is the "PEM inputs may have been switched" error; otherwise
the error lists the skipped types.  With certificates present the function
proceeds to parse them (beyond this model). -/
def LoadX509KeyPair (blocks : List PEMBlock) : LoadKeyPairResult :=
  let st := scanCertBlocks blocks
  if st.1.length = 0 then
    match st.2 with
    | [] => .errNoPEMBlock
    | [t] => if hasSuffix t "PRIVATE KEY" then .errSwitched else .errSkippedTypes [t]
    | ts => .errSkippedTypes ts
  else .proceed st.1

/-! ## Helper lemmas -/

lemma find?_key_eq {attrs : List (String × String)}
    (hnd : (attrs.map Prod.fst).Nodup) {p : String × String} (hp : p ∈ attrs) :
    attrs.find? (fun q => q.1 == p.1) = some p := by
  induction attrs with
  | nil => cases hp
  | cons a t ih =>
    simp only [List.map_cons, List.nodup_cons] at hnd
    rcases List.mem_cons.mp hp with rfl | hpt
    · simp [List.find?_cons]
    · have hne : (a.1 == p.1) = false := by
        rw [beq_eq_false_iff_ne]
        intro h
        exact hnd.1 (h ▸ List.mem_map_of_mem Prod.fst hpt)
      simp [List.find?_cons, hne, ih hnd.2 hpt]

lemma lookupAttr_eq {attrs : List (String × String)}
    (hnd : (attrs.map Prod.fst).Nodup) {p : String × String} (hp : p ∈ attrs) :
    lookupAttr attrs p.1 = p.2 := by
  simp [lookupAttr, find?_key_eq hnd hp]

lemma map_fst_orderedInsert (p : String × String) (l : List (String × String)) :
    (List.orderedInsert (fun a b => a.1 ≤ b.1) p l).map Prod.fst =
      List.orderedInsert (· ≤ ·) p.1 (l.map Prod.fst) := by
  induction l with
  | nil => simp [List.orderedInsert]
  | cons a t ih =>
    by_cases h : p.1 ≤ a.1
    · simp only [List.orderedInsert, if_pos h, List.map_cons]
    · simp only [List.orderedInsert, if_neg h, List.map_cons, ih]

lemma map_fst_specCanonicalPairs (attrs : List (String × String)) :
    (specCanonicalPairs attrs).map Prod.fst =
      List.insertionSort (· ≤ ·) (attrs.map Prod.fst) := by
  induction attrs with
  | nil => simp [specCanonicalPairs, List.insertionSort]
  | cons a t ih =>
    simp only [specCanonicalPairs, List.insertionSort, List.map_cons] at *
    rw [map_fst_orderedInsert, ih]

/-- With unique attribute names, the code's key-sort-then-lookup computation
of the attribute IDs agrees with the spec's canonical-pair formulation. -/
lemma attrIDs_eq_specAttributeIDs (hash32 : String → Nat)
    (attrs : List (String × String)) (hnd : (attrs.map Prod.fst).Nodup) :
    attrIDs hash32 attrs = specAttributeIDs hash32 attrs := by
  unfold attrIDs specAttributeIDs
  rw [← map_fst_specCanonicalPairs, List.map_map]
  apply List.map_congr_left
  intro p hp
  unfold specCanonicalPairs at hp
  have hpmem : p ∈ attrs :=
    (List.perm_insertionSort (fun p q => p.1 ≤ q.1) attrs).mem_iff.mp hp
  simp [Function.comp, lookupAttr_eq hnd hpmem]

/-- Attribute-ID derivation is invariant under reordering the attribute map,
as long as the attribute names are unique. -/
lemma attrIDs_perm_eq (hash32 : String → Nat) {a1 a2 : List (String × String)}
    (hperm : a1.Perm a2) (hnd : (a1.map Prod.fst).Nodup) :
    attrIDs hash32 a1 = attrIDs hash32 a2 := by
  have hnd2 : (a2.map Prod.fst).Nodup := (hperm.map Prod.fst).nodup_iff.mp hnd
  have hperm3 : (List.insertionSort (· ≤ ·) (a1.map Prod.fst)).Perm
      (List.insertionSort (· ≤ ·) (a2.map Prod.fst)) :=
    ((List.perm_insertionSort _ _).trans (hperm.map Prod.fst)).trans
      (List.perm_insertionSort _ _).symm
  have hkeys : List.insertionSort (· ≤ ·) (a1.map Prod.fst) =
      List.insertionSort (· ≤ ·) (a2.map Prod.fst) :=
    @List.eq_of_perm_of_sorted String (fun a b => a ≤ b) inferInstance _ _ hperm3
      (List.sorted_insertionSort _ _) (List.sorted_insertionSort _ _)
  unfold attrIDs
  rw [hkeys]
  apply List.map_congr_left
  intro k hk
  have hk2 : k ∈ a2.map Prod.fst := (List.perm_insertionSort _ _).mem_iff.mp hk
  obtain ⟨p, hp2, rfl⟩ := List.mem_map.mp hk2
  rw [lookupAttr_eq hnd2 hp2, lookupAttr_eq hnd (hperm.symm.subset hp2)]

lemma scanExtensions_append (attrOID : String)
    (unmarshal : List Nat → Option (List (String × String)))
    (hash32 : String → Nat) (l l' : List Extension) :
    ∀ st, scanExtensions attrOID unmarshal hash32 (l ++ l') st =
      (scanExtensions attrOID unmarshal hash32 l st).bind
        (scanExtensions attrOID unmarshal hash32 l') := by
  induction l with
  | nil => intro st; rfl
  | cons e rest ih =>
    intro st
    simp only [List.cons_append, scanExtensions]
    by_cases ha : e.oid = attrOID
    · simp only [if_pos ha]
      cases hu : unmarshal e.value with
      | none => rfl
      | some attrs => exact ih _
    · simp only [if_neg ha]
      exact ih _

lemma scanExtensions_irrelevant (attrOID : String)
    (unmarshal : List Nat → Option (List (String × String)))
    (hash32 : String → Nat) (l : List Extension)
    (hirr : ∀ e ∈ l, e.oid ≠ ParamsOIDString ∧ e.oid ≠ attrOID) :
    ∀ st, scanExtensions attrOID unmarshal hash32 l st = .ok st := by
  induction l with
  | nil => intro st; rfl
  | cons e rest ih =>
    intro st
    have he := hirr e (List.mem_cons_self e rest)
    have hrest : ∀ e ∈ rest, e.oid ≠ ParamsOIDString ∧ e.oid ≠ attrOID :=
      fun x hx => hirr x (List.mem_cons_of_mem e hx)
    simp only [scanExtensions, if_neg he.1, if_neg he.2]
    exact ih hrest st

lemma scanExtensions_noParams (attrOID : String)
    (unmarshal : List Nat → Option (List (String × String)))
    (hash32 : String → Nat) :
    ∀ (es : List Extension), (∀ e ∈ es, e.oid ≠ ParamsOIDString) →
      (∀ e ∈ es, e.oid = attrOID → (unmarshal e.value).isSome) →
      ∀ acc, ∃ ids, scanExtensions attrOID unmarshal hash32 es (none, acc) = .ok (none, ids) := by
  intro es
  induction es with
  | nil => exact fun _ _ acc => ⟨acc, rfl⟩
  | cons e rest ih =>
    intro hnp hjson acc
    have hp : e.oid ≠ ParamsOIDString := hnp e (List.mem_cons_self e rest)
    have hnp' : ∀ x ∈ rest, x.oid ≠ ParamsOIDString :=
      fun x hx => hnp x (List.mem_cons_of_mem e hx)
    have hjson' : ∀ x ∈ rest, x.oid = attrOID → (unmarshal x.value).isSome :=
      fun x hx => hjson x (List.mem_cons_of_mem e hx)
    by_cases ha : e.oid = attrOID
    · obtain ⟨attrs, hu⟩ :=
        Option.isSome_iff_exists.mp (hjson e (List.mem_cons_self e rest) ha)
      obtain ⟨ids, hids⟩ := ih hnp' hjson' (acc ++ attrIDs hash32 attrs)
      refine ⟨ids, ?_⟩
      simp only [scanExtensions, if_pos ha, if_neg hp, hu]
      exact hids
    · obtain ⟨ids, hids⟩ := ih hnp' hjson' acc
      refine ⟨ids, ?_⟩
      simp only [scanExtensions, if_neg ha, if_neg hp]
      exact hids

lemma lastParamsBytes_none (es : List Extension)
    (hnp : ∀ e ∈ es, e.oid ≠ ParamsOIDString) : lastParamsBytes es = none := by
  unfold lastParamsBytes
  suffices h : ∀ acc : Option (List Nat),
      es.foldl (fun acc e => if e.oid = ParamsOIDString then some e.value else acc) acc = acc from
    h none
  induction es with
  | nil => intro acc; rfl
  | cons e rest ih =>
    intro acc
    have hp : e.oid ≠ ParamsOIDString := hnp e (List.mem_cons_self e rest)
    have hrest : ∀ x ∈ rest, x.oid ≠ ParamsOIDString :=
      fun x hx => hnp x (List.mem_cons_of_mem e hx)
    simp only [List.foldl_cons, if_neg hp]
    exact ih hrest acc

lemma scanExtensions_error_of_badAttr (attrOID : String)
    (unmarshal : List Nat → Option (List (String × String)))
    (hash32 : String → Nat) {e : Extension}
    (hoid : e.oid = attrOID) (hbad : unmarshal e.value = none) :
    ∀ (es : List Extension), e ∈ es → ∀ st,
      scanExtensions attrOID unmarshal hash32 es st = .error () := by
  intro es
  induction es with
  | nil => intro hm; cases hm
  | cons e2 rest ih =>
    intro hm st
    by_cases ha : e2.oid = attrOID
    · cases hu : unmarshal e2.value with
      | none => simp [scanExtensions, if_pos ha, hu]
      | some attrs =>
        have hne : e ≠ e2 := by
          intro h
          rw [h, hu] at hbad
          cases hbad
        have hrest : e ∈ rest := (List.mem_cons.mp hm).resolve_left hne
        simp only [scanExtensions, if_pos ha, hu]
        exact ih hrest _
    · have hne : e ≠ e2 := fun h => ha (h ▸ hoid)
      have hrest : e ∈ rest := (List.mem_cons.mp hm).resolve_left hne
      simp only [scanExtensions, if_neg ha]
      exact ih hrest _

lemma scanCertBlocks_noCert (blocks : List PEMBlock)
    (hnc : ∀ b ∈ blocks, b.btype ≠ "CERTIFICATE") :
    scanCertBlocks blocks = ([], blocks.map PEMBlock.btype) := by
  unfold scanCertBlocks
  suffices h : ∀ cs sk, blocks.foldl
      (fun st b =>
        if b.btype = "CERTIFICATE" then (st.1 ++ [b.bytes], st.2)
        else (st.1, st.2 ++ [b.btype]))
      (cs, sk) = (cs, sk ++ blocks.map PEMBlock.btype) by
    rw [h [] []]
    simp
  induction blocks with
  | nil => intro cs sk; simp
  | cons b t ih =>
    intro cs sk
    have hb : b.btype ≠ "CERTIFICATE" := hnc b (List.mem_cons_self b t)
    have ht : ∀ x ∈ t, x.btype ≠ "CERTIFICATE" :=
      fun x hx => hnc x (List.mem_cons_of_mem b hx)
    simp only [List.foldl_cons, if_neg hb]
    rw [ih ht cs (sk ++ [b.btype])]
    simp

lemma exceptBindOk {ε α β : Type} (a : α) (f : α → Except ε β) :
    (Except.ok a : Except ε α).bind f = f a := rfl

lemma scanExtensions_cons_params (attrOID : String)
    (unmarshal : List Nat → Option (List (String × String)))
    (hash32 : String → Nat) (pe : Extension)
    (hpe : pe.oid = ParamsOIDString) (hnot : pe.oid ≠ attrOID)
    (rest : List Extension) (st : Option (List Nat) × List Nat) :
    scanExtensions attrOID unmarshal hash32 (pe :: rest) st =
      scanExtensions attrOID unmarshal hash32 rest (some pe.value, st.2) := by
  simp only [scanExtensions, if_pos hpe, if_neg hnot]

lemma scanExtensions_cons_attr (attrOID : String)
    (unmarshal : List Nat → Option (List (String × String)))
    (hash32 : String → Nat) (ae : Extension)
    (hae : ae.oid = attrOID) (hnot : ae.oid ≠ ParamsOIDString)
    (attrs : List (String × String)) (hum : unmarshal ae.value = some attrs)
    (rest : List Extension) (st : Option (List Nat) × List Nat) :
    scanExtensions attrOID unmarshal hash32 (ae :: rest) st =
      scanExtensions attrOID unmarshal hash32 rest (st.1, st.2 ++ attrIDs hash32 attrs) := by
  simp only [scanExtensions, if_pos hae, if_neg hnot, hum]

/-! ## Claim theorems -/

/-- C1: the claim fails on the code (code bug).  For non-empty underlying
content the claim requires SKI to return the SHA-256 digest on successful
serialization and to propagate an error — never crash — on failure.  Instead
`cpabeParams.SKI` executes its `panic(err)` unconditionally, so it panics
even when serialization succeeds, and the master-key and private-key
variants panic (crashing the process) instead of propagating an error when
serialization fails. -/
theorem C1_ski_panics :
    cpabeParamsSKI (fun _ : Unit => Except.ok [1]) id (some ()) = SKIResult.panicked
    ∧ cpabeMasterKeySKI (fun _ : Unit => Except.error "marshal failure") id (some ())
        = SKIResult.panicked
    ∧ cpabePrivateKeySKI (fun _ : Unit => Except.error "marshal failure") id (some ())
        = SKIResult.panicked :=
  ⟨rfl, rfl, rfl⟩

/-- C2: for a certificate carrying the Params extension and an attribute
extension (any order, any other extensions having unrelated OIDs, attribute
names unique as JSON map keys), the identifier queried by
`BccspBackedCPABEPrivateKey` is exactly the spec's
hash(Params-bytes ‖ big-endian-4-byte AttributeIDs), with each AttributeID
the 32-bit hash of "name.value" and the pairs in name-sorted order. -/
theorem C2_privateKey_identifier (attrOID : String)
    (unmarshal : List Nat → Option (List (String × String)))
    (hash32 : String → Nat) (sha : List Nat → List Nat)
    (l1 l2 l3 : List Extension) (pe ae : Extension)
    (attrs : List (String × String)) (es : List Extension)
    (hshape : es = l1 ++ (pe :: (l2 ++ ae :: l3)) ∨ es = l1 ++ (ae :: (l2 ++ pe :: l3)))
    (hpe : pe.oid = ParamsOIDString) (hae : ae.oid = attrOID)
    (hne : attrOID ≠ ParamsOIDString)
    (hirr : ∀ e, (e ∈ l1 ∨ e ∈ l2 ∨ e ∈ l3) → e.oid ≠ ParamsOIDString ∧ e.oid ≠ attrOID)
    (hum : unmarshal ae.value = some attrs)
    (hnd : (attrs.map Prod.fst).Nodup) :
    BccspBackedCPABEPrivateKey attrOID unmarshal hash32 sha es =
      .getKey (specCPABEIdentifier sha hash32 pe.value attrs) := by
  have hpe_na : pe.oid ≠ attrOID := by
    rw [hpe]; exact fun h => hne h.symm
  have hae_np : ae.oid ≠ ParamsOIDString := by
    rw [hae]; exact hne
  have hirr1 : ∀ e ∈ l1, e.oid ≠ ParamsOIDString ∧ e.oid ≠ attrOID :=
    fun e he => hirr e (Or.inl he)
  have hirr2 : ∀ e ∈ l2, e.oid ≠ ParamsOIDString ∧ e.oid ≠ attrOID :=
    fun e he => hirr e (Or.inr (Or.inl he))
  have hirr3 : ∀ e ∈ l3, e.oid ≠ ParamsOIDString ∧ e.oid ≠ attrOID :=
    fun e he => hirr e (Or.inr (Or.inr he))
  have hscan : scanExtensions attrOID unmarshal hash32 es (none, []) =
      .ok (some pe.value, attrIDs hash32 attrs) := by
    rcases hshape with rfl | rfl
    · rw [scanExtensions_append attrOID unmarshal hash32 l1 _ _,
        scanExtensions_irrelevant attrOID unmarshal hash32 l1 hirr1, exceptBindOk,
        scanExtensions_cons_params attrOID unmarshal hash32 pe hpe hpe_na,
        scanExtensions_append attrOID unmarshal hash32 l2 _ _,
        scanExtensions_irrelevant attrOID unmarshal hash32 l2 hirr2, exceptBindOk,
        scanExtensions_cons_attr attrOID unmarshal hash32 ae hae hae_np attrs hum,
        scanExtensions_irrelevant attrOID unmarshal hash32 l3 hirr3]
      simp
    · rw [scanExtensions_append attrOID unmarshal hash32 l1 _ _,
        scanExtensions_irrelevant attrOID unmarshal hash32 l1 hirr1, exceptBindOk,
        scanExtensions_cons_attr attrOID unmarshal hash32 ae hae hae_np attrs hum,
        scanExtensions_append attrOID unmarshal hash32 l2 _ _,
        scanExtensions_irrelevant attrOID unmarshal hash32 l2 hirr2, exceptBindOk,
        scanExtensions_cons_params attrOID unmarshal hash32 pe hpe hpe_na,
        scanExtensions_irrelevant attrOID unmarshal hash32 l3 hirr3]
      simp
  simp only [BccspBackedCPABEPrivateKey, hscan]
  rw [attrIDs_eq_specAttributeIDs hash32 attrs hnd]
  rfl

/-- Witness for C2 at a concrete two-extension certificate. -/
theorem C2_privateKey_identifier_witness :
    BccspBackedCPABEPrivateKey "9.9" (fun _ => some [("b", "y"), ("a", "x")])
      String.length id [⟨ParamsOIDString, [1, 2]⟩, ⟨"9.9", [7]⟩] =
    CPABEPrivResult.getKey
      (specCPABEIdentifier id String.length [1, 2] [("b", "y"), ("a", "x")]) :=
  C2_privateKey_identifier "9.9" (fun _ => some [("b", "y"), ("a", "x")])
    String.length id [] [] [] ⟨ParamsOIDString, [1, 2]⟩ ⟨"9.9", [7]⟩
    [("b", "y"), ("a", "x")] _ (Or.inl rfl) rfl rfl (by decide)
    (fun e he => by rcases he with h | h | h <;> cases h) rfl (by decide)

/-- C3: two unmarshal results that present the same attribute pairs in
different orders (unique names) lead to identical scan results and identical
private-key identifiers: the whole `BccspBackedCPABEPrivateKey` outcome is
the same. -/
theorem C3_order_invariance (attrOID : String)
    (u1 u2 : List Nat → Option (List (String × String)))
    (hash32 : String → Nat) (sha : List Nat → List Nat)
    (hrel : ∀ b, (u1 b = none ∧ u2 b = none) ∨
      ∃ a1 a2, u1 b = some a1 ∧ u2 b = some a2 ∧ a1.Perm a2 ∧ (a1.map Prod.fst).Nodup)
    (es : List Extension) :
    BccspBackedCPABEPrivateKey attrOID u1 hash32 sha es =
      BccspBackedCPABEPrivateKey attrOID u2 hash32 sha es := by
  have hscan : ∀ (l : List Extension) st,
      scanExtensions attrOID u1 hash32 l st = scanExtensions attrOID u2 hash32 l st := by
    intro l
    induction l with
    | nil => intro st; rfl
    | cons e rest ih =>
      intro st
      by_cases ha : e.oid = attrOID
      · rcases hrel e.value with ⟨h1, h2⟩ | ⟨a1, a2, h1, h2, hperm, hnd⟩
        · simp only [scanExtensions, if_pos ha, h1, h2]
        · simp only [scanExtensions, if_pos ha, h1, h2,
            attrIDs_perm_eq hash32 hperm hnd]
          exact ih _
      · simp only [scanExtensions, if_neg ha]
        exact ih _
  simp only [BccspBackedCPABEPrivateKey, hscan]

/-- Witness for C3 at a concrete certificate whose attribute map is
presented in two iteration orders. -/
theorem C3_order_invariance_witness :
    BccspBackedCPABEPrivateKey "7.7" (fun _ => some [("a", "x"), ("b", "y")])
      String.length id [⟨ParamsOIDString, [5]⟩, ⟨"7.7", [1]⟩] =
    BccspBackedCPABEPrivateKey "7.7" (fun _ => some [("b", "y"), ("a", "x")])
      String.length id [⟨ParamsOIDString, [5]⟩, ⟨"7.7", [1]⟩] :=
  C3_order_invariance "7.7" _ _ String.length id
    (fun _ => Or.inr ⟨[("a", "x"), ("b", "y")], [("b", "y"), ("a", "x")],
      rfl, rfl, by decide, by decide⟩) _

/-- C4: in `BccspBackedSigner` the key-file import fallback is attempted
exactly when the primary certificate-based resolution fails, it is attempted
at most once, and the error naming the key file is produced exactly when the
primary step and the fallback import both fail. -/
theorem C4_fallback_once {CS K S : Type}
    (primary : Except Unit CS) (importKey : Except Unit K)
    (newCryptoSigner : K → Except Unit CS) (newLocalSigner : CS → Except Unit S) :
    ((BccspBackedSigner primary importKey newCryptoSigner newLocalSigner).2 = 1
      ↔ primary = .error ())
    ∧ (BccspBackedSigner primary importKey newCryptoSigner newLocalSigner).2 ≤ 1
    ∧ (primary = .error () → importKey = .error () →
        (BccspBackedSigner primary importKey newCryptoSigner newLocalSigner).1
          = .error .keyfileImportFailed)
    ∧ ((BccspBackedSigner primary importKey newCryptoSigner newLocalSigner).1
          = .error .keyfileImportFailed →
        primary = .error () ∧ importKey = .error ()) := by
  cases primary with
  | ok cs =>
    cases hnl : newLocalSigner cs with
    | error e => simp [BccspBackedSigner, hnl]
    | ok s => simp [BccspBackedSigner, hnl]
  | error e =>
    cases e
    cases importKey with
    | error e2 =>
      cases e2
      simp [BccspBackedSigner]
    | ok k =>
      cases hnc : newCryptoSigner k with
      | error e3 => simp [BccspBackedSigner, hnc]
      | ok cs =>
        cases hnl : newLocalSigner cs with
        | error e4 => simp [BccspBackedSigner, hnc, hnl]
        | ok s => simp [BccspBackedSigner, hnc, hnl]

/-- Witness for C4: both the primary resolution and the fallback import
fail, so the operation fails with the error naming the key file. -/
theorem C4_fallback_once_witness :
    (BccspBackedSigner (Except.error ()) (Except.error ())
        (fun _ : Unit => Except.ok ()) (fun _ : Unit => Except.ok ())).1
      = Except.error BackedSignerErr.keyfileImportFailed :=
  (C4_fallback_once (Except.error ()) (Except.error ())
    (fun _ => Except.ok ()) (fun _ => Except.ok ())).2.2.1 rfl rfl

/-- C5: `GetSignerFromCert` rejects a store answer that is not a private key
with the explicit "private key not found" error naming the identifier, and a
signer is only ever produced from a key reporting Private() = true. -/
theorem C5_signer_requires_private {π σ S : Type}
    (keyImport : Except Unit π) (ski : π → List Nat)
    (getKey : List Nat → Except Unit (StoreKey σ))
    (newCryptoSigner : StoreKey σ → Except Unit S) :
    (∀ pk k, keyImport = .ok pk → getKey (ski pk) = .ok k → k.isPriv = false →
      GetSignerFromCert true keyImport ski getKey newCryptoSigner
        = .error (.privateKeyNotFound (ski pk)))
    ∧ (∀ (cspInit : Bool) k s,
        GetSignerFromCert cspInit keyImport ski getKey newCryptoSigner = .ok (k, s) →
        k.isPriv = true) := by
  constructor
  · intro pk k hki hgk hpriv
    simp [GetSignerFromCert, hki, hgk, hpriv]
  · intro cspInit k s h
    cases cspInit with
    | false => simp [GetSignerFromCert] at h
    | true =>
      cases hki : keyImport with
      | error e => simp [GetSignerFromCert, hki] at h
      | ok pk =>
        cases hgk : getKey (ski pk) with
        | error e => simp [GetSignerFromCert, hki, hgk] at h
        | ok key =>
          cases hp : key.isPriv with
          | false => simp [GetSignerFromCert, hki, hgk, hp] at h
          | true =>
            cases hns : newCryptoSigner key with
            | error e => simp [GetSignerFromCert, hki, hgk, hp, hns] at h
            | ok s2 =>
              simp [GetSignerFromCert, hki, hgk, hp, hns] at h
              rw [← h.1]
              exact hp

/-- Witness for C5: the store answers with a public (non-private) key, and
the call fails with the identifier-naming error. -/
theorem C5_signer_requires_private_witness :
    GetSignerFromCert true (Except.ok ()) (fun _ : Unit => [1])
      (fun _ => Except.ok (⟨(), false⟩ : StoreKey Unit))
      (fun _ => Except.ok ())
      = Except.error (GetSignerErr.privateKeyNotFound [1]) :=
  (C5_signer_requires_private (Except.ok ()) (fun _ => [1])
    (fun _ => Except.ok ⟨(), false⟩) (fun _ => Except.ok ())).1
    () ⟨(), false⟩ rfl rfl rfl

/-- C6 counterexample: a certificate with no Params-OID extension but a
malformed attribute extension makes `BccspBackedCPABEPrivateKey` return the
unmarshal error, not the claimed nil-key/nil-error "not supported" result. -/
theorem C6_counterexample :
    (∀ e ∈ [Extension.mk "55.55" [0]], e.oid ≠ ParamsOIDString)
    ∧ BccspBackedCPABEPrivateKey "55.55" (fun _ => none) (fun _ => 0) (fun l => l)
        [Extension.mk "55.55" [0]] ≠ CPABEPrivResult.notSupported := by
  constructor
  · decide
  · decide

/-- C6 (amended): for a certificate with no Params-OID extension whose
attribute extensions (if any) all unmarshal successfully,
`BccspBackedCPABEPrivateKey` returns the nil-key/nil-error "not supported"
result — for every hash and every store, so neither attribute hashing nor a
store query influences the outcome — and `BccspBackedCPABEParams` returns
"not supported" unconditionally. -/
theorem C6_noParams_notSupported (attrOID : String)
    (unmarshal : List Nat → Option (List (String × String)))
    (hash32 : String → Nat) (sha : List Nat → List Nat)
    (es : List Extension)
    (hnp : ∀ e ∈ es, e.oid ≠ ParamsOIDString)
    (hjson : ∀ e ∈ es, e.oid = attrOID → (unmarshal e.value).isSome) :
    BccspBackedCPABEPrivateKey attrOID unmarshal hash32 sha es = .notSupported
    ∧ BccspBackedCPABEParams es = .notSupported := by
  constructor
  · obtain ⟨ids, hids⟩ := scanExtensions_noParams attrOID unmarshal hash32 es hnp hjson []
    simp [BccspBackedCPABEPrivateKey, hids]
  · simp [BccspBackedCPABEParams, lastParamsBytes_none es hnp]

/-- Witness for the amended C6 at a concrete certificate with only a
well-formed attribute extension. -/
theorem C6_noParams_notSupported_witness :
    BccspBackedCPABEPrivateKey "5.5" (fun _ => some []) (fun _ => 0) (fun l => l)
      [⟨"5.5", [3]⟩] = CPABEPrivResult.notSupported
    ∧ BccspBackedCPABEParams [⟨"5.5", [3]⟩] = CPABEParamsResult.notSupported :=
  C6_noParams_notSupported "5.5" (fun _ => some []) (fun _ => 0) (fun l => l)
    [⟨"5.5", [3]⟩] (by decide) (fun _ _ _ => rfl)

/-- C7: `ImportBCCSPKeyFromPEM` rejects an RSA private key with the explicit
unsupported-operation error, never yields a nil key together with a nil
error, and imports an ECDSA private key on the same path when conversion and
store import succeed. -/
theorem C7_rsa_import_rejected {E R K : Type}
    (readFile : Except Unit (List Nat))
    (pemToPrivateKey : List Nat → Except Unit (PEMKey E R))
    (privateKeyToDER : E → Except Unit (List Nat))
    (keyImport : List Nat → Except Unit K) :
    (∀ buff r, readFile = .ok buff → pemToPrivateKey buff = .ok (.rsa r) →
      ImportBCCSPKeyFromPEM readFile pemToPrivateKey privateKeyToDER keyImport
        = (none, some .rsaUnsupported))
    ∧ ¬((ImportBCCSPKeyFromPEM readFile pemToPrivateKey privateKeyToDER keyImport).1 = none
        ∧ (ImportBCCSPKeyFromPEM readFile pemToPrivateKey privateKeyToDER keyImport).2 = none)
    ∧ (∀ buff ek d sk, readFile = .ok buff → pemToPrivateKey buff = .ok (.ecdsa ek) →
        privateKeyToDER ek = .ok d → keyImport d = .ok sk →
        ImportBCCSPKeyFromPEM readFile pemToPrivateKey privateKeyToDER keyImport
          = (some sk, none)) := by
  refine ⟨?_, ?_, ?_⟩
  · intro buff r hrf hp
    simp [ImportBCCSPKeyFromPEM, hrf, hp]
  · rintro ⟨h1, h2⟩
    cases hrf : readFile with
    | error e => simp [ImportBCCSPKeyFromPEM, hrf] at h2
    | ok buff =>
      cases hp : pemToPrivateKey buff with
      | error e => simp [ImportBCCSPKeyFromPEM, hrf, hp] at h2
      | ok pk =>
        cases pk with
        | ecdsa ek =>
          cases hd : privateKeyToDER ek with
          | error e => simp [ImportBCCSPKeyFromPEM, hrf, hp, hd] at h2
          | ok d =>
            cases hki : keyImport d with
            | error e => simp [ImportBCCSPKeyFromPEM, hrf, hp, hd, hki] at h2
            | ok sk => simp [ImportBCCSPKeyFromPEM, hrf, hp, hd, hki] at h1
        | rsa r => simp [ImportBCCSPKeyFromPEM, hrf, hp] at h2
        | other => simp [ImportBCCSPKeyFromPEM, hrf, hp] at h2
  · intro buff ek d sk hrf hp hd hki
    simp [ImportBCCSPKeyFromPEM, hrf, hp, hd, hki]

/-- Witness for C7: an RSA key file is rejected with the explicit error. -/
theorem C7_rsa_import_rejected_witness :
    ImportBCCSPKeyFromPEM (Except.ok [0])
      (fun _ => Except.ok (PEMKey.rsa () : PEMKey Unit Unit))
      (fun _ => Except.ok []) (fun _ => Except.ok ())
      = (none, some ImportErr.rsaUnsupported) :=
  (C7_rsa_import_rejected (Except.ok [0])
    (fun _ => Except.ok (PEMKey.rsa ()))
    (fun _ => Except.ok []) (fun _ => Except.ok ())).1 [0] () rfl rfl

/-- C8: `getBCCSPKeyOpts` implements the selection table exactly: RSA sizes
2048/3072/4096 succeed and any other RSA size is the invalid-RSA-size error;
ECDSA 256/384 succeed; ECDSA 521 is the dedicated unsupported-size error,
distinct from the invalid-ECDSA-size error of any unrecognized size; any
other algorithm is the invalid-algorithm error; a nil request yields default
ECDSA options carrying the caller's ephemeral flag. -/
theorem C8_keyOpts_table :
    (∀ eph, getBCCSPKeyOpts (some ⟨"rsa", 2048⟩) eph = .ok (.rsa2048 eph))
    ∧ (∀ eph, getBCCSPKeyOpts (some ⟨"rsa", 3072⟩) eph = .ok (.rsa3072 eph))
    ∧ (∀ eph, getBCCSPKeyOpts (some ⟨"rsa", 4096⟩) eph = .ok (.rsa4096 eph))
    ∧ (∀ (n : Int) eph, n ≠ 2048 → n ≠ 3072 → n ≠ 4096 →
        getBCCSPKeyOpts (some ⟨"rsa", n⟩) eph = .error (.invalidRSASize n))
    ∧ (∀ eph, getBCCSPKeyOpts (some ⟨"ecdsa", 256⟩) eph = .ok (.ecdsaP256 eph))
    ∧ (∀ eph, getBCCSPKeyOpts (some ⟨"ecdsa", 384⟩) eph = .ok (.ecdsaP384 eph))
    ∧ (∀ eph, getBCCSPKeyOpts (some ⟨"ecdsa", 521⟩) eph = .error .unsupportedECDSA521)
    ∧ (∀ (n : Int) eph, n ≠ 256 → n ≠ 384 → n ≠ 521 →
        getBCCSPKeyOpts (some ⟨"ecdsa", n⟩) eph = .error (.invalidECDSASize n))
    ∧ (∀ (n : Int), (KeyOptsErr.unsupportedECDSA521 : KeyOptsErr) ≠ .invalidECDSASize n)
    ∧ (∀ a (n : Int) eph, a ≠ "rsa" → a ≠ "ecdsa" →
        getBCCSPKeyOpts (some ⟨a, n⟩) eph = .error (.invalidAlgo a))
    ∧ (∀ eph, getBCCSPKeyOpts none eph = .ok (.ecdsaDefault eph)) := by
  refine ⟨fun eph => rfl, fun eph => rfl, fun eph => rfl, ?_, fun eph => rfl,
    fun eph => rfl, fun eph => rfl, ?_, ?_, ?_, fun eph => rfl⟩
  · intro n eph h1 h2 h3
    simp [getBCCSPKeyOpts, h1, h2, h3]
  · intro n eph h1 h2 h3
    simp [getBCCSPKeyOpts, h1, h2, h3]
  · exact fun n h => KeyOptsErr.noConfusion h
  · intro a n eph h1 h2
    simp [getBCCSPKeyOpts, h1, h2]

/-- Witness for C8: RSA 1024 and ECDSA 1234 produce the generic
invalid-size errors. -/
theorem C8_keyOpts_table_witness :
    getBCCSPKeyOpts (some ⟨"rsa", 1024⟩) false
        = Except.error (KeyOptsErr.invalidRSASize 1024)
    ∧ getBCCSPKeyOpts (some ⟨"ecdsa", 1234⟩) false
        = Except.error (KeyOptsErr.invalidECDSASize 1234) :=
  ⟨C8_keyOpts_table.2.2.2.1 1024 false (by decide) (by decide) (by decide),
   C8_keyOpts_table.2.2.2.2.2.2.2.1 1234 false (by decide) (by decide) (by decide)⟩

/-- C9: when a PEM bundle contains no CERTIFICATE block, `LoadX509KeyPair`
returns the "PEM inputs may have been switched" error exactly when the
single non-certificate block's type ends in "PRIVATE KEY", and otherwise
the error listing the skipped block types. -/
theorem C9_load_noCert_errors (blocks : List PEMBlock)
    (hnc : ∀ b ∈ blocks, b.btype ≠ "CERTIFICATE") :
    (∀ t, blocks.map PEMBlock.btype = [t] → hasSuffix t "PRIVATE KEY" = true →
      LoadX509KeyPair blocks = .errSwitched)
    ∧ (blocks ≠ [] →
        (∀ t, blocks.map PEMBlock.btype = [t] → hasSuffix t "PRIVATE KEY" = false) →
        LoadX509KeyPair blocks = .errSkippedTypes (blocks.map PEMBlock.btype)) := by
  have hscan := scanCertBlocks_noCert blocks hnc
  constructor
  · intro t ht hsuf
    simp [LoadX509KeyPair, hscan, ht, hsuf]
  · intro hne hnot
    cases hmap : blocks.map PEMBlock.btype with
    | nil =>
      cases blocks with
      | nil => exact absurd rfl hne
      | cons b t => simp at hmap
    | cons t1 rest =>
      cases rest with
      | nil =>
        have hf := hnot t1 hmap
        simp [LoadX509KeyPair, hscan, hmap, hf]
      | cons t2 ts =>
        simp [LoadX509KeyPair, hscan, hmap]

/-- Witness for C9: a bundle holding only an "EC PRIVATE KEY" block yields
the switched-inputs error. -/
theorem C9_load_noCert_errors_witness :
    LoadX509KeyPair [⟨"EC PRIVATE KEY", [1]⟩] = LoadKeyPairResult.errSwitched :=
  (C9_load_noCert_errors [⟨"EC PRIVATE KEY", [1]⟩] (by decide)).1
    "EC PRIVATE KEY" rfl (by decide)

/-- C10: a malformed attribute-extension payload makes
`BccspBackedCPABEPrivateKey` return the unmarshal error even when the
Params-OID extension is absent: the scan aborts before the Params-absence
check that would have produced the "not supported" result. -/
theorem C10_unmarshal_preempts (attrOID : String)
    (unmarshal : List Nat → Option (List (String × String)))
    (hash32 : String → Nat) (sha : List Nat → List Nat)
    (es : List Extension) (e : Extension)
    (_hnp : ∀ x ∈ es, x.oid ≠ ParamsOIDString)
    (hmem : e ∈ es) (hoid : e.oid = attrOID) (hbad : unmarshal e.value = none) :
    BccspBackedCPABEPrivateKey attrOID unmarshal hash32 sha es = .unmarshalError := by
  simp [BccspBackedCPABEPrivateKey,
    scanExtensions_error_of_badAttr attrOID unmarshal hash32 hoid hbad es hmem (none, [])]

/-- Witness for C10 at a concrete one-extension certificate with a bad
attribute payload and no Params extension. -/
theorem C10_unmarshal_preempts_witness :
    BccspBackedCPABEPrivateKey "8.8" (fun _ => none) (fun _ => 0) (fun l => l)
      [⟨"8.8", [1]⟩] = CPABEPrivResult.unmarshalError :=
  C10_unmarshal_preempts "8.8" (fun _ => none) (fun _ => 0) (fun l => l)
    [⟨"8.8", [1]⟩] ⟨"8.8", [1]⟩ (by decide) (List.mem_singleton.mpr rfl) rfl rfl
